import Mathlib

/-!
Verification development for the debate-agent-mcp convergence/debate engine.

The definitions below are a shallow embedding of the TypeScript core:
  * `packages/core/src/engine/confidence.ts` (similarity matcher and
    agreement/confidence engine),
  * `packages/core/src/engine/judge.ts` and the plan judge
    (score breakdowns, output normalization),
  * `packages/core/src/tools/run-agent.ts` (retry loop, backoff),
  * the validator module (vote parsing, approve/reject tally),
  * the round loop of `debate360.ts` / `plan-debate360.ts`.

JavaScript numbers are modelled as exact rationals (`ℚ`), with
`Math.round x = ⌊x + 1/2⌋` and `Math.floor = ⌊·⌋`; JS strings are Lean
`String`s (the code only manipulates ASCII-relevant fragments).
-/

namespace Debate

/-- JavaScript `Math.round(num / den)` for a positive denominator, in exact
integer arithmetic: `⌊num/den + 1/2⌋ = ⌊(2·num + den) / (2·den)⌋`, which for
naturals is truncating division. -/
def jsRoundDiv (num den : ℕ) : ℕ := (2 * num + den) / (2 * den)

/-- JS regex class `\w`: ASCII word character (letter, digit, underscore). -/
def isWordChar (c : Char) : Bool := c.isAlpha || c.isDigit || c = '_'

/-- JS regex class `\s`, restricted to the ASCII whitespace characters. -/
def isSpaceChar (c : Char) : Bool :=
  c = ' ' || c = '\t' || c = '\n' || c = '\r' || c = Char.ofNat 11 || c = Char.ofNat 12

/-- Models `String.prototype.toLowerCase` (ASCII fragment). -/
def jsToLower (s : String) : String := String.mk (s.toList.map Char.toLower)

/-- Models `String.prototype.toUpperCase` (ASCII fragment). -/
def jsToUpper (s : String) : String := String.mk (s.toList.map Char.toUpper)

/-- Models `String.prototype.trim`: strip leading and trailing whitespace. -/
def jsTrim (s : String) : String :=
  String.mk (((s.toList.dropWhile (isSpaceChar ·)).reverse.dropWhile (isSpaceChar ·)).reverse)

/-- Does the first list occur as a leading segment of the second? -/
def startsWithChars : List Char → List Char → Bool
  | [], _ => true
  | _ :: _, [] => false
  | a :: ns, b :: hs => a = b && startsWithChars ns hs

/-- JS `String.prototype.includes` on exploded strings:
the needle occurs somewhere in the haystack. -/
def listIncludes (needle : List Char) : List Char → Bool
  | [] => needle.isEmpty
  | c :: rest => startsWithChars needle (c :: rest) || listIncludes needle rest

/-- JS `hay.includes(needle)`. -/
def strIncludes (hay needle : String) : Bool := listIncludes needle.toList hay.toList

/-- JS `s.endsWith(suffix)`. -/
def jsEndsWith (s suffix : String) : Bool :=
  startsWithChars suffix.toList.reverse s.toList.reverse

/-- Models `title.toLowerCase().replace(/[^\w\s]/g, "").trim()` — the normalized-title
computation shared by the finding and plan-step matchers. -/
def normalizeTitle (s : String) : String :=
  jsTrim (String.mk ((jsToLower s).toList.filter (fun c => isWordChar c || isSpaceChar c)))

/-- Helper for `split(/\s+/)`: accumulate maximal non-whitespace runs.
The accumulator holds the current word reversed. -/
def splitWsAux : List Char → List Char → List String
  | [], cur => if cur.isEmpty then [] else [String.mk cur.reverse]
  | c :: rest, cur =>
    if isSpaceChar c then
      if cur.isEmpty then splitWsAux rest []
      else String.mk cur.reverse :: splitWsAux rest []
    else splitWsAux rest (c :: cur)

/-- Models `s.split(/\s+/)` on an already-trimmed string (the matchers always apply it
after `trim()`, where JS produces no empty fragments). -/
def splitWs (s : String) : List String := splitWsAux s.toList []

/-- Models `titleX.split(/\s+/).filter(w => w.length > 3)`. -/
def wordsOver3 (t : String) : List String := (splitWs t).filter (fun w => 3 < w.length)

/-- Models `s.split(":")[0]`: the part of a file reference before the first colon. -/
def beforeColon (s : String) : String := String.mk (s.toList.takeWhile (· ≠ ':'))

/-- The part of a path after the last `/` (`s.split("/").pop()`). -/
def afterLastSlash (s : String) : String :=
  String.mk ((s.toList.reverse.takeWhile (· ≠ '/')).reverse)

/-- A review finding (`Finding` in `types.ts`).  `severity` is kept as a raw
string because the extractor does not actually restrict it to `P0/P1/P2`. -/
structure Finding where
  severity : String
  title : String
  file : Option String := none
  line : Option ℚ := none
  detail : String := ""
  fix : String := ""
deriving DecidableEq

/-- A plan step (`PlanStep` in `types.ts`). -/
structure PlanStep where
  phase : ℚ
  title : String
  description : String := ""
  files : Option (List String) := none
  dependencies : Option (List String) := none
  consensus : ℚ := 0
deriving DecidableEq

/-- Models `createFindingSignature` from `confidence.ts`. -/
def createFindingSignature (f : Finding) : String :=
  f.severity ++ "|" ++ normalizeTitle f.title ++ "|" ++
    (match f.file with
     | some s => jsToLower (beforeColon s)
     | none => "")

/-- Models `findingsMatch` from `confidence.ts`: severity gate, exact normalized
title, Jaccard similarity over words longer than 3 characters, and the
same-file-reference fallback. -/
def findingsMatch (a b : Finding) : Bool :=
  if a.severity ≠ b.severity then false
  else
    let titleA := normalizeTitle a.title
    let titleB := normalizeTitle b.title
    if titleA = titleB then true
    else
      let wordsA := (wordsOver3 titleA).toFinset
      let wordsB := (wordsOver3 titleB).toFinset
      if wordsA.card = 0 ∨ wordsB.card = 0 then false
      else
        -- Jaccard similarity = inter/uni; with `uni > 0`,
        -- `similarity > 0.5` is `uni < 2·inter` and `similarity > 0.3` is
        -- `3·uni < 10·inter`.
        let inter := (wordsA ∩ wordsB).card
        let uni := (wordsA ∪ wordsB).card
        if uni < 2 * inter then true
        else
          match a.file, b.file with
          | some fa, some fb =>
            decide (beforeColon fa = beforeColon fb) && decide (3 * uni < 10 * inter)
          | _, _ => false

/-- Models `stepsMatch` from the plan judge: same phase, then the same
normalized-title / word-overlap rule with threshold 0.5. -/
def stepsMatch (a b : PlanStep) : Bool :=
  if a.phase ≠ b.phase then false
  else
    let titleA := normalizeTitle a.title
    let titleB := normalizeTitle b.title
    if titleA = titleB then true
    else
      let wordsA := (wordsOver3 titleA).toFinset
      let wordsB := (wordsOver3 titleB).toFinset
      if wordsA.card = 0 ∨ wordsB.card = 0 then false
      else
        -- Jaccard similarity > 0.5, by cross-multiplication as above.
        decide ((wordsA ∪ wordsB).card < 2 * (wordsA ∩ wordsB).card)

/-! ### Review judge (`judge.ts`) -/

/-- Models `ReviewOutput` from `types.ts`. -/
structure ReviewOutput where
  findings : List Finding
  residual_risks : List String
  open_questions : List String
  raw_output : String
deriving DecidableEq

/-- Models `ScoreBreakdown` from `types.ts` (review mode). -/
structure ScoreBreakdown where
  p0_findings : ℤ
  p1_findings : ℤ
  p2_findings : ℤ
  false_positives : ℤ
  concrete_fixes : ℤ
  file_accuracy : ℤ
  clarity : ℤ
  total : ℤ
deriving DecidableEq

/-- Models `calculateSeverityScore`: `min(count * points, max)`. -/
def calculateSeverityScore (findings : List Finding) (severity : String)
    (points maxPts : ℤ) : ℤ :=
  min (((findings.filter (fun f => f.severity = severity)).length : ℤ) * points) maxPts

/-- The `commonPatterns` list of `isCommonFileName`. -/
def commonPatterns : List String :=
  ["package.json", "tsconfig.json", "index", "main", "app", "config", "README",
   ".gitignore", ".env", "pubspec.yaml", "build.gradle", "Podfile"]

/-- Models `isCommonFileName`: `basename = filename.split("/").pop() || filename`,
then substring test against the common patterns. -/
def isCommonFileName (filename : String) : Bool :=
  let b := afterLastSlash filename
  let basename := if b = "" then filename else b
  commonPatterns.any (fun pattern => strIncludes basename pattern)

/-- The `diffFiles.some(...)` existence test shared by the false-positive and
file-accuracy scores: exact path, suffix either way, or equal basenames. -/
def fileExistsInDiff (diffFiles : List String) (filePath : String) : Bool :=
  diffFiles.any (fun diffFile =>
    let diffBasename := afterLastSlash diffFile
    let findingBasename := afterLastSlash filePath
    diffFile = filePath || jsEndsWith diffFile filePath || jsEndsWith filePath diffFile ||
      diffBasename = findingBasename)

/-- Number of findings charged the false-positive penalty: file present,
absent from the diff, and not a well-known config/build file. -/
def falsePositiveCount (findings : List Finding) (diffFiles : List String) : ℕ :=
  (findings.filter (fun f =>
    match f.file with
    | none => false
    | some fl =>
      let filePath := beforeColon fl
      ¬(fileExistsInDiff diffFiles filePath = true) ∧ ¬(isCommonFileName filePath = true))).length

/-- Models `calculateFalsePositiveScore`: `−10` per false positive, floored at `−30`. -/
def calculateFalsePositiveScore (findings : List Finding) (diffFiles : List String) : ℤ :=
  max ((-10) * (falsePositiveCount findings diffFiles : ℤ)) (-30)

/-- JS regex `/\w+\(/` test: some word character immediately followed by `(`. -/
def hasPair (p q : Char → Bool) : List Char → Bool
  | [] => false
  | [_] => false
  | a :: b :: rest => (p a && q b) || hasPair p q (b :: rest)

/-- Per-finding contribution of `calculateConcreteFixScore`, in half-point
units (the JS counter steps by 2, 1 and 0.5): code snippet 4, method or
property reference 2, prose fix 1, below length 10 nothing. -/
def concreteFixWeight2 (f : Finding) : ℕ :=
  if 10 < f.fix.length then
    if strIncludes f.fix "`" || strIncludes f.fix "```" then 4
    else if hasPair isWordChar (· = '(') f.fix.toList ||
            hasPair (· = '.') isWordChar f.fix.toList then 2
    else 1
  else 0

/-- Models `calculateConcreteFixScore`: `min(Math.floor(count * 5), 25)` with the
count kept in half units, so `floor(count·5) = (2·count)·5 / 2`. -/
def calculateConcreteFixScore (findings : List Finding) : ℤ :=
  min (((findings.map concreteFixWeight2).sum * 5 / 2 : ℕ) : ℤ) 25

/-- Models `s.split(sep)` on exploded strings (the accumulator holds the current
segment reversed). -/
def splitOnCharAux (sep : Char) : List Char → List Char → List String
  | [], cur => [String.mk cur.reverse]
  | c :: rest, cur =>
    if c = sep then String.mk cur.reverse :: splitOnCharAux sep rest []
    else splitOnCharAux sep rest (c :: cur)

/-- Models `file.split(":")` second component (the line-number slot), if any. -/
def colonSecond (s : String) : Option String := (splitOnCharAux ':' s.toList []).get? 1

/-- Is the string a nonempty run of digits (`/^\d+$/`)? -/
def allDigits (s : String) : Bool := ¬s.toList.isEmpty && s.toList.all Char.isDigit

/-- Per-finding contribution of `calculateFileAccuracyScore`, in half-point
units: 2 for a file present in the diff, +1 more when a numeric line number
follows the colon. -/
def fileAccuracyWeight2 (diffFiles : List String) (f : Finding) : ℕ :=
  match f.file with
  | none => 0
  | some fl =>
    let filePath := beforeColon fl
    if fileExistsInDiff diffFiles filePath then
      2 + (match colonSecond fl with
           | some lineNum => if ¬(lineNum = "") ∧ allDigits lineNum = true then 1 else 0
           | none => 0)
    else 0

/-- Models `calculateFileAccuracyScore`: `min(Math.floor(count * 2), 10)` with the
count kept in half units, so `floor(count·2) = (2·count)·2 / 2`. -/
def calculateFileAccuracyScore (findings : List Finding) (diffFiles : List String) : ℤ :=
  min (((findings.map (fileAccuracyWeight2 diffFiles)).sum * 2 / 2 : ℕ) : ℤ) 10

/-- Models `calculateClarityScore` (review mode): structural bonuses capped at 10. -/
def calculateClarityScore (review : ReviewOutput) : ℤ :=
  let s1 : ℤ := if 0 < review.findings.length then 3 else 0
  let s2 : ℤ := if 0 < review.residual_risks.length then 2 else 0
  let s3 : ℤ := if 0 < review.open_questions.length then 2 else 0
  let wellFormed := review.findings.filter (fun f =>
    f.severity ≠ "" ∧ f.title ≠ "" ∧ f.detail ≠ "" ∧ f.fix ≠ "")
  let s4 : ℤ :=
    if wellFormed.length = review.findings.length ∧ 0 < review.findings.length then 3 else 0
  min (s1 + s2 + s3 + s4) 10

/-- Models `scoreReviewOutput` from `judge.ts`. -/
def scoreReviewOutput (review : ReviewOutput) (diffFiles : List String) : ScoreBreakdown :=
  let p0Score := calculateSeverityScore review.findings "P0" 15 45
  let p1Score := calculateSeverityScore review.findings "P1" 8 32
  let p2Score := calculateSeverityScore review.findings "P2" 3 12
  let falsePositiveScore := calculateFalsePositiveScore review.findings diffFiles
  let concreteFixScore := calculateConcreteFixScore review.findings
  let fileAccuracyScore := calculateFileAccuracyScore review.findings diffFiles
  let clarityScore := calculateClarityScore review
  { p0_findings := p0Score
    p1_findings := p1Score
    p2_findings := p2Score
    false_positives := falsePositiveScore
    concrete_fixes := concreteFixScore
    file_accuracy := fileAccuracyScore
    clarity := clarityScore
    total := p0Score + p1Score + p2Score + falsePositiveScore + concreteFixScore +
      fileAccuracyScore + clarityScore }

/-! ### Plan judge -/

/-- Models `PlanOutput` from `types.ts`. -/
structure PlanOutput where
  steps : List PlanStep
  summary : String := ""
  risks : List String := []
  open_questions : List String := []
  raw_output : String := ""
deriving DecidableEq

/-- Models `PlanScoreBreakdown` from `types.ts`. -/
structure PlanScoreBreakdown where
  clarity : ℤ
  completeness : ℤ
  feasibility : ℤ
  consensus : ℤ
  total : ℤ
deriving DecidableEq

/-- Plan-mode `calculateClarityScore` (0–30).  The accumulator is kept in
half-point units because of the `1.5` per-file-step weight; the final
`Math.round` on a half-unit value `k/2` is `(k + 1) / 2`. -/
def planClarityScore (plan : PlanOutput) : ℤ :=
  let base : ℕ := if 0 < plan.steps.length then 10 else 0
  let stepsWithTitles := plan.steps.filter (fun s => s.title ≠ "" ∧ 5 ≤ s.title.length)
  let titleScore : ℕ := min (stepsWithTitles.length * 4) 16
  let stepsWithDescriptions :=
    plan.steps.filter (fun s => s.description ≠ "" ∧ 20 ≤ s.description.length)
  let descriptionScore : ℕ := min (stepsWithDescriptions.length * 4) 16
  let stepsWithFiles := plan.steps.filter (fun s =>
    match s.files with
    | some fs => 0 < fs.length
    | none => False)
  let fileScore : ℕ := min (stepsWithFiles.length * 3) 12
  let summaryScore : ℕ := if plan.summary ≠ "" ∧ 20 ≤ plan.summary.length then 6 else 0
  min ((((base + titleScore + descriptionScore + fileScore + summaryScore) + 1) / 2 : ℕ) : ℤ) 30

/-- Models `file.split("/").pop() || file`, lower-cased, as used by the
plan completeness coverage check. -/
def coverageBasename (f : String) : String :=
  let b := afterLastSlash f
  jsToLower (if b = "" then f else b)

/-- Plan-mode `calculateCompletenessScore` (0–30).  Every contribution is an
integer (`Math.round(ratio·15)` included), so the outer `Math.round` is the
identity. -/
def planCompletenessScore (plan : PlanOutput) (diffFiles : List String) : ℤ :=
  let coverageScore : ℕ :=
    if 0 < plan.steps.length ∧ 0 < diffFiles.length then
      let mentionedFiles : Finset String :=
        (plan.steps.flatMap (fun s => ((s.files.getD []).map coverageBasename))).toFinset
      let coveredCount := (diffFiles.filter (fun d => coverageBasename d ∈ mentionedFiles)).length
      -- `Math.round((covered/total) * 15)` with `total > 0`.
      if 0 < diffFiles.length then jsRoundDiv (coveredCount * 15) diffFiles.length else 0
    else if 0 < plan.steps.length then 10
    else 0
  let phases : Finset ℚ := (plan.steps.map (·.phase)).toFinset
  let phaseScore : ℕ := if 3 ≤ phases.card then 5 else if 2 ≤ phases.card then 3 else 0
  let riskScore : ℕ :=
    if 0 < plan.risks.length then min (plan.risks.length * 2) 5 else 0
  let questionScore : ℕ :=
    if 0 < plan.open_questions.length then min (plan.open_questions.length * 2) 5 else 0
  min (((coverageScore + phaseScore + riskScore + questionScore : ℕ) : ℤ)) 30

/-- Adjacent phases never decrease (the `isOrdered` loop). -/
def phasesAscending : List PlanStep → Bool
  | [] => true
  | [_] => true
  | a :: b :: rest => ¬(b.phase < a.phase) && phasesAscending (b :: rest)

/-- Plan-mode `calculateFeasibilityScore` (0–20).  All contributions are
integers, so `Math.round` is the identity here. -/
def planFeasibilityScore (plan : PlanOutput) : ℤ :=
  let s1 : ℤ := if 0 < plan.steps.length then 5 else 0
  let s2 : ℤ :=
    if 2 ≤ plan.steps.length then (if phasesAscending plan.steps then 5 else 0)
    else if plan.steps.length = 1 then 5
    else 0
  let stepTitles : Finset String := (plan.steps.map (fun s => jsToLower s.title)).toFinset
  let validDeps := plan.steps.all (fun s =>
    (s.dependencies.getD []).all (fun dep => jsToLower dep ∈ stepTitles))
  let s3 : ℤ := if 0 < plan.steps.length then (if validDeps then 5 else 0) else 0
  let n := plan.steps.length
  let s4 : ℤ :=
    if 3 ≤ n ∧ n ≤ 15 then 5
    else if 2 ≤ n ∧ n ≤ 20 then 3
    else if 1 ≤ n then 1
    else 0
  min (s1 + s2 + s3 + s4) 20

/-- Models `scorePlanOutput` from the plan judge. -/
def scorePlanOutput (plan : PlanOutput) (diffFiles : List String)
    (consensusScore : ℤ) : PlanScoreBreakdown :=
  let clarityScore := planClarityScore plan
  let completenessScore := planCompletenessScore plan diffFiles
  let feasibilityScore := planFeasibilityScore plan
  let cappedConsensus := min consensusScore 20
  { clarity := clarityScore
    completeness := completenessScore
    feasibility := feasibilityScore
    consensus := cappedConsensus
    total := clarityScore + completenessScore + feasibilityScore + cappedConsensus }

/-! ### Output extractor normalization (`normalizeFinding`, `normalizePlanStep`) -/

/-- A raw finding object as decoded from worker JSON: every recognized field
may be absent.  String-typed slots model the `String(...)` coercions of the
source; absent and non-string slots both land on `none`. -/
structure RawFinding where
  severity : Option String := none
  title : Option String := none
  file : Option String := none
  line : Option ℚ := none
  detail : Option String := none
  description : Option String := none
  fix : Option String := none
  suggestion : Option String := none

/-- JS `x || default` for an optional string (empty string is falsy). -/
def jsOrStr (o : Option String) (dflt : String) : String :=
  match o with
  | some s => if s = "" then dflt else s
  | none => dflt

/-- JS `a || b || ""` for two optional strings. -/
def jsOrStr2 (a b : Option String) : String :=
  match a with
  | some s => if s = "" then jsOrStr b "" else s
  | none => jsOrStr b ""

/-- Models `normalizeFinding` from `judge.ts`:
`severity: raw.severity?.toUpperCase() || "P2"`, defaulted titles and text
fields, truthiness-guarded `file` and `line`. -/
def normalizeFinding (raw : RawFinding) : Finding :=
  { severity :=
      match raw.severity with
      | some s => if jsToUpper s = "" then "P2" else jsToUpper s
      | none => "P2"
    title := jsOrStr raw.title "Untitled Issue"
    file :=
      match raw.file with
      | some f => if f = "" then none else some f
      | none => none
    line :=
      match raw.line with
      | some v => if v = 0 then none else some v
      | none => none
    detail := jsOrStr2 raw.detail raw.description
    fix := jsOrStr2 raw.fix raw.suggestion }

/-- A raw plan-step object as decoded from worker JSON. -/
structure RawPlanStep where
  phase : Option ℚ := none
  title : Option String := none
  description : Option String := none
  files : Option (List String) := none
  dependencies : Option (List String) := none
  consensus : Option ℚ := none

/-- Models `normalizePlanStep` from the plan judge: numeric `phase` defaults to 1,
`consensus` to 0; missing `files`/`dependencies` stay `undefined`. -/
def normalizePlanStep (raw : RawPlanStep) : PlanStep :=
  { phase := raw.phase.getD 1
    title := jsOrStr raw.title "Untitled Step"
    description := jsOrStr raw.description ""
    files := raw.files
    dependencies := raw.dependencies
    consensus := raw.consensus.getD 0 }

/-! ### Process executor retry logic (`run-agent.ts`) -/

/-- Models `RetryConfig` from `types.ts`. -/
structure RetryConfig where
  maxRetries : ℕ
  baseDelayMs : ℚ
  maxDelayMs : ℚ

/-- Models `calculateBackoff`: exponential backoff with multiplicative jitter,
capped at `maxDelayMs`.  `rand` models the `Math.random()` draw in `[0,1)`. -/
def calculateBackoff (attempt : ℕ) (config : RetryConfig) (rand : ℚ) : ℚ :=
  let delay := config.baseDelayMs * 2 ^ attempt
  let jitter := delay * (2/10) * (rand - 1/2)
  min (delay + jitter) config.maxDelayMs

/-- Models `isRetryableError`: timeout and transient OS errors retry; `ENOENT`,
`EACCES` and spawn errors do not; unknown errors do not. -/
def isRetryableError (message : String) : Bool :=
  let m := jsToLower message
  if strIncludes m "timed out" then true
  else if strIncludes m "econnreset" then true
  else if strIncludes m "econnrefused" then true
  else if strIncludes m "etimedout" then true
  else if strIncludes m "epipe" then true
  else if strIncludes m "enoent" then false
  else if strIncludes m "eacces" then false
  else if strIncludes m "spawn" then false
  else false

/-- Outcome of one `runAgentOnce` invocation: it either resolves or rejects
with an error message. -/
inductive AttemptResult where
  | success
  | failure (message : String)

/-- The retry `for` loop of `runAgent`, counting `runAgentOnce` invocations.
The first argument is the number of retries still allowed
(`maxRetries - attempt`), the second the current attempt index; the loop
guard `attempt < maxRetries` is exactly "retries remain". -/
def runAgentLoop (outcome : ℕ → AttemptResult) : ℕ → ℕ → ℕ
  | 0, attempt =>
    match outcome attempt with
    | .success => 1
    | .failure _ => 1
  | r + 1, attempt =>
    match outcome attempt with
    | .success => 1
    | .failure msg =>
      if isRetryableError msg = true then 1 + runAgentLoop outcome r (attempt + 1)
      else 1

/-- Total number of `runAgentOnce` invocations made by `runAgent`:
the `maxRetries = 0` early branch makes exactly one call, otherwise the
retry loop runs from attempt 0 with `maxRetries` retries allowed. -/
def runAgentInvocations (outcome : ℕ → AttemptResult) (maxRetries : ℕ) : ℕ :=
  if maxRetries = 0 then 1
  else runAgentLoop outcome maxRetries 0

/-! ### Validator (vote parsing and tally) -/

/-- A vote as parsed from a validator's JSON (`{id, vote, reason}`). -/
structure RawVote where
  id : String
  vote : String
  reason : Option String := none

/-- Models `ValidationVote` from `types.ts`. -/
structure ValidationVote where
  findingId : String
  finding : Finding
  agent : String
  vote : String
  reason : Option String := none

/-- The three ways `output.match(/\{[\s\S]*\}/)` + `JSON.parse` can go:
no JSON-looking substring at all, a substring that fails to parse, or a
parsed vote list (`parsed.votes || []`). -/
inductive ParseOutcome (α : Type) where
  | noJson
  | malformed
  | parsed (v : α)

/-- Maximal leading digit run. -/
def takeDigits (l : List Char) : List Char := l.takeWhile Char.isDigit

/-- Decimal value of a digit run (`parseInt`). -/
def charsToNat (l : List Char) : ℕ :=
  l.foldl (fun acc c => acc * 10 + (c.toNat - 48)) 0

/-- First match of the regex `/finding_(\d+)/`: scan every start position for
the literal `finding_` followed by at least one digit. -/
def findIndexScan : List Char → Option ℕ
  | [] => none
  | c :: rest =>
    if startsWithChars "finding_".toList (c :: rest) then
      let ds := takeDigits ((c :: rest).drop 8)
      if ds.isEmpty then findIndexScan rest else some (charsToNat ds)
    else findIndexScan rest

/-- Models `id.match(/finding_(\d+)/)` and `parseInt` of the captured digits. -/
def extractFindingIndex (s : String) : Option ℕ := findIndexScan s.toList

/-- Models `parseValidationVotes` from the validator module: no JSON substring gives
an empty vote list, a JSON parse failure approves every finding, and parsed
votes keep only ids that resolve to an in-range finding index. -/
def parseValidationVotes (po : ParseOutcome (List RawVote)) (agent : String)
    (findings : List Finding) : List ValidationVote :=
  match po with
  | .noJson => []
  | .malformed =>
    findings.enum.map (fun p =>
      { findingId := "finding_" ++ toString p.1
        finding := p.2
        agent := agent
        vote := "approve"
        reason := some "Default approval (parsing failed)" })
  | .parsed rawVotes =>
    rawVotes.filterMap (fun v =>
      match extractFindingIndex v.id with
      | some index =>
        if h : index < findings.length then
          some { findingId := v.id
                 finding := findings.get ⟨index, h⟩
                 agent := agent
                 vote := if v.vote = "reject" then "reject" else "approve"
                 reason := v.reason }
        else none
      | none => none)

/-- What one validator run produced: either `runAgent` rejected, or it
resolved with output whose parse went one of the three ways. -/
inductive ValidatorOutcome where
  | executorError
  | output (po : ParseOutcome (List RawVote))

/-- Votes contributed by a single validator inside `runValidation`
(the `try`/`catch` around `runAgent` + `parseValidationVotes`). -/
def validatorVotes (findings : List Finding) (validator : String) :
    ValidatorOutcome → List ValidationVote
  | .executorError =>
    findings.enum.map (fun p =>
      { findingId := "finding_" ++ toString p.1
        finding := p.2
        agent := validator
        vote := "approve"
        reason := some "Default approval (validator error)" })
  | .output po => parseValidationVotes po validator findings

/-- Approve tally for finding index `i` over all collected votes. -/
def approvesFor (votes : List ValidationVote) (i : ℕ) : ℕ :=
  (votes.filter (fun v => extractFindingIndex v.findingId = some i ∧ v.vote = "approve")).length

/-- Reject tally for finding index `i` (the `else` branch counts every
non-approve vote). -/
def rejectsFor (votes : List ValidationVote) (i : ℕ) : ℕ :=
  (votes.filter (fun v => extractFindingIndex v.findingId = some i ∧ v.vote ≠ "approve")).length

/-- Models `ValidationResult` from `types.ts`. -/
structure ValidationResult where
  votes : List ValidationVote
  approvedFindings : List Finding
  rejectedFindings : List Finding
  tieFindings : List Finding

/-- The categorization `for` loop of `runValidation`, over the indexed
findings: majority-or-tie approves (ties with positive votes are also
flagged), strict reject majority rejects. -/
def categorizeRows (votes : List ValidationVote) :
    List (ℕ × Finding) → List Finding × List Finding × List Finding
  | [] => ([], [], [])
  | (i, f) :: rest =>
    let prev := categorizeRows votes rest
    let approves := approvesFor votes i
    let rejects := rejectsFor votes i
    if rejects ≤ approves then
      (f :: prev.1, prev.2.1,
        if approves = rejects ∧ 0 < approves then f :: prev.2.2 else prev.2.2)
    else (prev.1, f :: prev.2.1, prev.2.2)

/-- Models `runValidation` (tally part): collect all validators' votes, then
categorize every composed finding. -/
def runValidation (findings : List Finding)
    (validators : List (String × ValidatorOutcome)) : ValidationResult :=
  let allVotes := validators.flatMap (fun p => validatorVotes findings p.1 p.2)
  let cat := categorizeRows allVotes findings.enum
  { votes := allVotes
    approvedFindings := cat.1
    rejectedFindings := cat.2.1
    tieFindings := cat.2.2 }

/-! ### Agreement/confidence engine (`confidence.ts`) -/

/-- One critique vote (`FindingVote` in `types.ts`). -/
structure FindingVote where
  findingId : String
  findingTitle : String
  vote : String
  reason : Option String := none
deriving DecidableEq

/-- Models `CritiqueResult` from `types.ts`. -/
structure CritiqueResult where
  reviewer : String
  target : String
  critique : String := ""
  votes : List FindingVote
deriving DecidableEq

/-- Models `AgentDebateOutput` from `types.ts` (the mutable `score` slot is
recomputed by the judge and not part of the confidence computation). -/
structure AgentDebateOutput where
  agent : String
  output : String := ""
  review : ReviewOutput
  failed : Bool := false
deriving DecidableEq

/-- JS `new Set(list)` iteration: skip elements already seen. -/
def jsDedupAux (seen : List String) : List String → List String
  | [] => []
  | a :: rest =>
    if seen.contains a then jsDedupAux seen rest
    else a :: jsDedupAux (a :: seen) rest

/-- JS `new Set(list)` iteration order: deduplicate keeping first occurrences. -/
def jsDedup (l : List String) : List String := jsDedupAux [] l

/-- An entry of `collectAllFindings`' accumulator. -/
structure CollectedFinding where
  finding : Finding
  source : String
  signature : String
deriving DecidableEq

/-- Models `collectAllFindings`: fold over every agent's findings in order, skipping
a finding that fuzzy-matches an already-collected one or whose signature was
already seen. -/
def collectAllFindings (agentOutputs : List AgentDebateOutput) : List CollectedFinding :=
  (agentOutputs.flatMap (fun o => o.review.findings.map (fun f => (f, o.agent)))).foldl
    (fun acc p =>
      let signature := createFindingSignature p.1
      if acc.any (fun e => findingsMatch p.1 e.finding) then acc
      else if acc.any (fun e => e.signature = signature) then acc
      else acc ++ [{ finding := p.1, source := p.2, signature := signature }]) []

/-- The critique-vote/title fuzzy match of `countAgreements`: either
lower-cased title contains the first 20 characters of the other. -/
def voteTitleMatches (finding : Finding) (v : FindingVote) : Bool :=
  listIncludes ((jsToLower finding.title).toList.take 20) (jsToLower v.findingTitle).toList ||
    listIncludes ((jsToLower v.findingTitle).toList.take 20) (jsToLower finding.title).toList

/-- The per-agent classification loop of `countAgreements`, returning the
`(agrees, disagrees, abstains)` name lists. -/
def countAgreementsAux (finding : Finding) (agentOutputs : List AgentDebateOutput)
    (critiques : List CritiqueResult) : List String → List String × List String × List String
  | [] => ([], [], [])
  | a :: rest =>
    let (ag, dis, ab) := countAgreementsAux finding agentOutputs critiques rest
    match agentOutputs.find? (fun o => o.agent = a) with
    | none => (ag, dis, a :: ab)
    | some out =>
      if out.review.findings.any (fun f => findingsMatch f finding) then (a :: ag, dis, ab)
      else
        let agentCritiques := critiques.filter (fun c => c.reviewer = a)
        let votedAgree := agentCritiques.any (fun c =>
          c.votes.any (fun v => voteTitleMatches finding v && v.vote = "agree"))
        let votedDisagree := agentCritiques.any (fun c =>
          c.votes.any (fun v => voteTitleMatches finding v && v.vote = "disagree"))
        if votedAgree && !votedDisagree then (a :: ag, dis, ab)
        else if votedDisagree && !votedAgree then (ag, a :: dis, ab)
        else (ag, dis, a :: ab)

/-- Models `countAgreements` from `confidence.ts`. -/
def countAgreements (finding : Finding) (agentOutputs : List AgentDebateOutput)
    (critiques : List CritiqueResult) : List String × List String × List String :=
  countAgreementsAux finding agentOutputs critiques (jsDedup (agentOutputs.map (·.agent)))

/-- Models `agentOutputs.find(o => o.agent === name)?.review.findings || []`. -/
def findingsFor (agentOutputs : List AgentDebateOutput) (name : String) : List Finding :=
  match agentOutputs.find? (fun o => o.agent = name) with
  | some o => o.review.findings
  | none => []

/-- One entry of `buildAgreementMatrix`: self-agreement 100, both-empty 100,
otherwise `min(round(2·matching/|signatures| · 100), 100)`. -/
def buildAgreementMatrixEntry (agentOutputs : List AgentDebateOutput)
    (agentA agentB : String) : ℕ :=
  if agentA = agentB then 100
  else
    let findingsA := findingsFor agentOutputs agentA
    let findingsB := findingsFor agentOutputs agentB
    if findingsA.length = 0 ∧ findingsB.length = 0 then 100
    else
      let matchingFindings :=
        (findingsA.filter (fun f => findingsB.any (fun g => findingsMatch f g))).length
      let totalUnique := ((findingsA ++ findingsB).map createFindingSignature).toFinset.card
      -- `Math.round((matching * 2 / totalUnique) * 100)`.
      let agreement :=
        if 0 < totalUnique then jsRoundDiv (matchingFindings * 2 * 100) totalUnique
        else 100
      min agreement 100

/-- The key list of the agreement matrix (object keys deduplicate while
preserving first insertion). -/
def matrixKeys (agentOutputs : List AgentDebateOutput) : List String :=
  jsDedup (agentOutputs.map (·.agent))

/-- The ordered pairs `(i, j)` with `i < j` walked by the
average-pairwise-agreement loop. -/
def offDiagPairs {α : Type} : List α → List (α × α)
  | [] => []
  | a :: rest => rest.map (fun b => (a, b)) ++ offDiagPairs rest

/-- Models `ConfidenceResult` (scalar parts; the matrix itself is
`buildAgreementMatrixEntry` over `matrixKeys`). -/
structure ConfidenceResult where
  score : ℕ
  converged : Bool
  agreedFindings : ℕ
  totalFindings : ℕ

/-- Models `Math.ceil(totalAgents / 2)`, the `majorityThreshold` local of
`calculateConfidence`. -/
def majorityThresholdOf (agentOutputs : List AgentDebateOutput) : ℕ :=
  (agentOutputs.length + 1) / 2

/-- The `agreedFindings` counter of `calculateConfidence`: unique findings
whose agreeing-agent count reaches the majority threshold. -/
def agreedFindingsCount (agentOutputs : List AgentDebateOutput)
    (critiques : List CritiqueResult) : ℕ :=
  ((collectAllFindings agentOutputs).filter (fun t =>
    majorityThresholdOf agentOutputs ≤
      (countAgreements t.finding agentOutputs critiques).1.length)).length

/-- The `agreementConfidence` local of `calculateConfidence`:
`Math.round((agreedFindings / allFindings.length) * 100)`, or 100 with no
findings at all. -/
def agreementConfidenceOf (agentOutputs : List AgentDebateOutput)
    (critiques : List CritiqueResult) : ℕ :=
  if 0 < (collectAllFindings agentOutputs).length then
    jsRoundDiv (agreedFindingsCount agentOutputs critiques * 100)
      (collectAllFindings agentOutputs).length
  else 100

/-- The `avgPairwiseAgreement` local of `calculateConfidence`:
`Math.round(totalPairwiseAgreement / pairCount)` over the strictly-upper
matrix pairs, or 100 when there are no pairs. -/
def avgPairwiseAgreementOf (agentOutputs : List AgentDebateOutput) : ℕ :=
  let pairs := offDiagPairs (matrixKeys agentOutputs)
  if 0 < pairs.length then
    jsRoundDiv (pairs.map (fun p => buildAgreementMatrixEntry agentOutputs p.1 p.2)).sum
      pairs.length
  else 100

/-- Models `calculateConfidence` from `confidence.ts`: 60% majority-agreement ratio
blended with 40% average pairwise agreement.  The blend
`Math.round(a·0.6 + p·0.4)` is `Math.round((6a + 4p) / 10)` exactly. -/
def calculateConfidence (agentOutputs : List AgentDebateOutput)
    (critiques : List CritiqueResult) (threshold : ℤ) : ConfidenceResult :=
  let finalConfidence :=
    jsRoundDiv (agreementConfidenceOf agentOutputs critiques * 6 +
      avgPairwiseAgreementOf agentOutputs * 4) 10
  { score := finalConfidence
    converged := decide (threshold ≤ (finalConfidence : ℤ))
    agreedFindings := agreedFindingsCount agentOutputs critiques
    totalFindings := (collectAllFindings agentOutputs).length }

/-! ### The round loop (`runReviewDebate360` / `runPlanDebate360`)

Both orchestrators run the same `while (confidence < threshold &&
currentRound <= maxRounds)` loop: compute the round's confidence, append a
round record, and either advance (`currentRound++` while below both bounds)
or break.  `conf` abstracts the confidence produced for a given round
number (in plan mode, the consensus score). -/

/-- The round loop body, from a given `currentRound`/`confidence` state.
`fuel` is `maxRounds + 1 - currentRound`, so the `while` guard
`currentRound <= maxRounds` is `0 < fuel` (the `fuel + 1` pattern) and the
advance guard `currentRound < maxRounds` is `0 < fuel - 1`. -/
def debateLoopGo (conf : ℕ → ℤ) (threshold : ℤ) : ℕ → ℤ → ℕ → List (ℕ × ℤ)
  | 0, _, _ => []
  | fuel + 1, confidence, currentRound =>
    if confidence < threshold then
      let c := conf currentRound
      if c < threshold ∧ 0 < fuel then
        (currentRound, c) :: debateLoopGo conf threshold fuel c (currentRound + 1)
      else [(currentRound, c)]
    else []

/-- The full round loop: `confidence` starts at 0 and `currentRound` at 1
(so the initial fuel is `maxRounds`). -/
def debateRounds (conf : ℕ → ℤ) (threshold : ℤ) (maxRounds : ℕ) : List (ℕ × ℤ) :=
  debateLoopGo conf threshold maxRounds 0 1

/-! ### Spec-side and amended matcher variants, and concrete fixtures -/

/-- The basename of a file reference's path part, as the spec's
"file-basename match" reads: drop any `:line` suffix, then take the part
after the last `/`. -/
def specFileBasename (f : String) : String := afterLastSlash (beforeColon f)

/-- Models `findingsMatch` as claim C6 states it, word for word: same severity, and
normalized-title equality, or Jaccard similarity `> 0.5`, or equal file
*basenames* combined with similarity `> 0.3` (similarity comparisons by
cross-multiplication; an empty word set makes both similarity tests fail). -/
def specFindingsMatch (a b : Finding) : Bool :=
  decide (a.severity = b.severity) &&
  (decide (normalizeTitle a.title = normalizeTitle b.title) ||
    (let wordsA := (wordsOver3 (normalizeTitle a.title)).toFinset
     let wordsB := (wordsOver3 (normalizeTitle b.title)).toFinset
     let inter := (wordsA ∩ wordsB).card
     let uni := (wordsA ∪ wordsB).card
     decide (uni < 2 * inter) ||
      (match a.file, b.file with
       | some fa, some fb =>
         decide (specFileBasename fa = specFileBasename fb) && decide (3 * uni < 10 * inter)
       | _, _ => false)))

/-- The amended reading of claim C6: identical, except that the file clause
compares the full file paths before any `:` suffix (what
`a.file.split(":")[0]` yields), not the basenames. -/
def findingsMatchAmended (a b : Finding) : Bool :=
  decide (a.severity = b.severity) &&
  (decide (normalizeTitle a.title = normalizeTitle b.title) ||
    (let wordsA := (wordsOver3 (normalizeTitle a.title)).toFinset
     let wordsB := (wordsOver3 (normalizeTitle b.title)).toFinset
     let inter := (wordsA ∩ wordsB).card
     let uni := (wordsA ∪ wordsB).card
     decide (uni < 2 * inter) ||
      (match a.file, b.file with
       | some fa, some fb =>
         decide (beforeColon fa = beforeColon fb) && decide (3 * uni < 10 * inter)
       | _, _ => false)))

/-- Two findings with the same severity, Jaccard title similarity exactly
1/2 (in the `(0.3, 0.5]` window), different directories but the same file
basename: the code does not match them, the spec's basename reading does. -/
def cexFindingA : Finding :=
  { severity := "P0", title := "buffer overflow parsing", file := some "src/utils/helper.ts:10" }

/-- See `cexFindingA`. -/
def cexFindingB : Finding :=
  { severity := "P0", title := "buffer overflow handling", file := some "lib/helper.ts:20" }

/-- An empty review, for concrete confidence-engine fixtures. -/
def emptyReview : ReviewOutput :=
  { findings := [], residual_risks := [], open_questions := [], raw_output := "" }

/-- Two agents that both produced zero findings. -/
def demoOutputs : List AgentDebateOutput :=
  [{ agent := "codex", review := emptyReview }, { agent := "claude", review := emptyReview }]

/-- A concrete retry configuration (the source's `DEFAULT_RETRY_CONFIG` has
`maxRetries 2, baseDelayMs 2000, maxDelayMs 15000`). -/
def demoRetryConfig : RetryConfig := { maxRetries := 2, baseDelayMs := 2000, maxDelayMs := 15000 }

/-- A one-element finding list for validation fixtures. -/
def demoFinding : Finding := { severity := "P0", title := "null dereference in parser" }

/-! ## Helper lemmas -/

theorem jsRoundDiv_le_100 {num den : ℕ} (h : num ≤ 100 * den) (hd : 0 < den) :
    jsRoundDiv num den ≤ 100 := by
  unfold jsRoundDiv
  have h2 : 0 < 2 * den := by omega
  have : (2 * num + den) / (2 * den) < 101 := by
    rw [Nat.div_lt_iff_lt_mul h2]
    omega
  omega

theorem jsRoundDiv_100_self {den : ℕ} (hd : 0 < den) : jsRoundDiv (100 * den) den = 100 := by
  unfold jsRoundDiv
  have h2 : 0 < 2 * den := by omega
  have hlt : (2 * (100 * den) + den) / (2 * den) < 101 := by
    rw [Nat.div_lt_iff_lt_mul h2]; omega
  have hge : 100 ≤ (2 * (100 * den) + den) / (2 * den) :=
    (Nat.le_div_iff_mul_le h2).mpr (by omega)
  omega

theorem debateLoopGo_length_le (conf : ℕ → ℤ) (threshold : ℤ) :
    ∀ (fuel : ℕ) (confidence : ℤ) (currentRound : ℕ),
      (debateLoopGo conf threshold fuel confidence currentRound).length ≤ fuel := by
  intro fuel
  induction fuel with
  | zero => intro confidence currentRound; simp [debateLoopGo]
  | succ n ih =>
    intro confidence currentRound
    simp only [debateLoopGo]
    split
    · split
      · simpa using ih _ _
      · simp
    · simp

/-! ## Claim theorems -/

/-- Claim C2: The round loop of `runReviewDebate360` and `runPlanDebate360`
(both are the same `while (confidence < threshold && currentRound <=
maxRounds)` loop, modelled by `debateRounds`) executes at most `maxRounds`
iterations and then stops, for every sequence of per-round confidence
values: with a positive threshold (the tool surface allows 50–100 and the
engine defaults 80) and `maxRounds ≥ 1` (allowed range 1–5, default 3), the
number of round records is between 1 and `maxRounds`. -/
theorem claim_C2 (conf : ℕ → ℤ) (threshold : ℤ) (maxRounds : ℕ)
    (hthr : 0 < threshold) (hmax : 1 ≤ maxRounds) :
    1 ≤ (debateRounds conf threshold maxRounds).length ∧
      (debateRounds conf threshold maxRounds).length ≤ maxRounds := by
  constructor
  · unfold debateRounds
    obtain ⟨m, rfl⟩ : ∃ m, maxRounds = m + 1 := ⟨maxRounds - 1, by omega⟩
    simp only [debateLoopGo]
    rw [if_pos hthr]
    split <;> simp
  · exact debateLoopGo_length_le conf threshold maxRounds 0 1

theorem claim_C2_witness :
    1 ≤ (debateRounds (fun _ => 0) 80 3).length ∧
      (debateRounds (fun _ => 0) 80 3).length ≤ 3 :=
  claim_C2 (fun _ => 0) 80 3 (by decide) (by decide)

/-- Claim C3: Review score breakdowns: the total is the sum of the seven
components and every component respects its documented cap/floor; plan score
breakdowns likewise have `total = clarity + completeness + feasibility +
consensus` with the 30/30/20/20 caps. -/
theorem claim_C3 (review : ReviewOutput) (diffFiles : List String)
    (plan : PlanOutput) (planFiles : List String) (consensusScore : ℤ) :
    ((scoreReviewOutput review diffFiles).total =
        (scoreReviewOutput review diffFiles).p0_findings +
        (scoreReviewOutput review diffFiles).p1_findings +
        (scoreReviewOutput review diffFiles).p2_findings +
        (scoreReviewOutput review diffFiles).false_positives +
        (scoreReviewOutput review diffFiles).concrete_fixes +
        (scoreReviewOutput review diffFiles).file_accuracy +
        (scoreReviewOutput review diffFiles).clarity) ∧
    (scoreReviewOutput review diffFiles).p0_findings ≤ 45 ∧
    (scoreReviewOutput review diffFiles).p1_findings ≤ 32 ∧
    (scoreReviewOutput review diffFiles).p2_findings ≤ 12 ∧
    (-30 : ℤ) ≤ (scoreReviewOutput review diffFiles).false_positives ∧
    (scoreReviewOutput review diffFiles).concrete_fixes ≤ 25 ∧
    (scoreReviewOutput review diffFiles).file_accuracy ≤ 10 ∧
    (scoreReviewOutput review diffFiles).clarity ≤ 10 ∧
    ((scorePlanOutput plan planFiles consensusScore).total =
        (scorePlanOutput plan planFiles consensusScore).clarity +
        (scorePlanOutput plan planFiles consensusScore).completeness +
        (scorePlanOutput plan planFiles consensusScore).feasibility +
        (scorePlanOutput plan planFiles consensusScore).consensus) ∧
    (scorePlanOutput plan planFiles consensusScore).clarity ≤ 30 ∧
    (scorePlanOutput plan planFiles consensusScore).completeness ≤ 30 ∧
    (scorePlanOutput plan planFiles consensusScore).feasibility ≤ 20 ∧
    (scorePlanOutput plan planFiles consensusScore).consensus ≤ 20 := by
  refine ⟨rfl, ?_, ?_, ?_, ?_, ?_, ?_, ?_, rfl, ?_, ?_, ?_, ?_⟩
  · exact min_le_right _ _
  · exact min_le_right _ _
  · exact min_le_right _ _
  · exact le_max_right _ _
  · exact min_le_right _ _
  · exact min_le_right _ _
  · exact min_le_right _ _
  · exact min_le_right _ _
  · exact min_le_right _ _
  · exact min_le_right _ _
  · exact min_le_right _ _

theorem runAgentLoop_le (outcome : ℕ → AttemptResult) :
    ∀ (remaining attempt : ℕ), runAgentLoop outcome remaining attempt ≤ remaining + 1 := by
  intro remaining
  induction remaining with
  | zero =>
    intro attempt
    unfold runAgentLoop
    split <;> omega
  | succ r ih =>
    intro attempt
    unfold runAgentLoop
    split
    · omega
    · split
      · have := ih (attempt + 1)
        omega
      · omega

theorem runAgentLoop_nonretryable (outcome : ℕ → AttemptResult) :
    ∀ (k remaining attempt : ℕ) (msg : String), k ≤ remaining →
      (∀ j, j < k → ∃ m, outcome (attempt + j) = AttemptResult.failure m ∧
        isRetryableError m = true) →
      outcome (attempt + k) = AttemptResult.failure msg → isRetryableError msg = false →
      runAgentLoop outcome remaining attempt = k + 1 := by
  intro k
  induction k with
  | zero =>
    intro remaining attempt msg _ _ hout hret
    rw [Nat.add_zero] at hout
    cases remaining with
    | zero => unfold runAgentLoop; rw [hout]
    | succ r => unfold runAgentLoop; rw [hout]; simp [hret]
  | succ k ih =>
    intro remaining attempt msg hk hprev hout hret
    obtain ⟨r, rfl⟩ : ∃ r, remaining = r + 1 := ⟨remaining - 1, by omega⟩
    obtain ⟨m, hm, hmret⟩ := hprev 0 (by omega)
    rw [Nat.add_zero] at hm
    unfold runAgentLoop
    rw [hm]
    simp only [hmret, if_pos]
    have hrec : runAgentLoop outcome r (attempt + 1) = k + 1 := by
      refine ih r (attempt + 1) msg (by omega) ?_ ?_ hret
      · intro j hj
        obtain ⟨m', hm', hm'ret⟩ := hprev (j + 1) (by omega)
        exact ⟨m', by rw [← hm']; ring_nf, hm'ret⟩
      · rw [← hout]; ring_nf
    omega

/-- Claim C4, counterexample: With `maxRetries = 0`, `runAgent` still makes
exactly one `runAgentOnce` invocation (the dedicated early branch), not the
zero invocations the claim states. -/
theorem claim_C4_counterexample :
    runAgentInvocations (fun _ => AttemptResult.success) 0 = 1 ∧ (1 : ℕ) ≠ 0 := by
  constructor
  · rfl
  · decide

/-- Claim C4, amended: `runAgent` invokes `runAgentOnce` at most
`maxRetries + 1` times; with `maxRetries = 0` it makes exactly one
invocation (retries disabled); and when the attempts up to `k` fail
retryably and attempt `k` raises a non-retryable error (binary not found,
permission denied, spawn error), the call ends after that attempt, with
exactly `k + 1` invocations. -/
theorem claim_C4 (outcome : ℕ → AttemptResult) (maxRetries : ℕ) :
    runAgentInvocations outcome maxRetries ≤ maxRetries + 1 ∧
    (maxRetries = 0 → runAgentInvocations outcome maxRetries = 1) ∧
    (∀ (k : ℕ) (msg : String), k ≤ maxRetries →
      (∀ j, j < k → ∃ m, outcome j = AttemptResult.failure m ∧ isRetryableError m = true) →
      outcome k = AttemptResult.failure msg → isRetryableError msg = false →
      runAgentInvocations outcome maxRetries = k + 1) := by
  refine ⟨?_, ?_, ?_⟩
  · unfold runAgentInvocations
    split
    · omega
    · exact runAgentLoop_le outcome maxRetries 0
  · intro h
    simp [runAgentInvocations, h]
  · intro k msg hk hprev hout hret
    unfold runAgentInvocations
    split
    · omega
    · have := runAgentLoop_nonretryable outcome k maxRetries 0 msg hk
        (by simpa using hprev) (by simpa using hout) hret
      exact this

theorem claim_C4_witness :
    runAgentInvocations (fun _ => AttemptResult.failure "Failed to run agent x: spawn y ENOENT") 2
      = 0 + 1 :=
  (claim_C4 (fun _ => AttemptResult.failure "Failed to run agent x: spawn y ENOENT") 2).2.2 0
    "Failed to run agent x: spawn y ENOENT" (by decide)
    (fun j hj => absurd hj (Nat.not_lt_zero j)) rfl (by decide)

/-- Claim C9: The retry delay is the exponential backoff value
`baseDelayMs · 2^attempt` plus jitter, capped at `maxDelayMs` — but the
jitter the code computes is `delay · 0.2 · (rand − 0.5)`, which for
`rand ∈ [0, 1)` stays within ±10% of the delay, not the ±20% the code's own
comment (and the spec) document: the perturbed value always lies in
`[0.9·delay, 1.1·delay]`. -/
theorem claim_C9 (config : RetryConfig) (attempt : ℕ) (rand : ℚ)
    (hbase : 0 ≤ config.baseDelayMs) (h0 : 0 ≤ rand) (h1 : rand < 1) :
    calculateBackoff attempt config rand ≤ config.maxDelayMs ∧
    config.baseDelayMs * 2 ^ attempt * (9/10) ≤
      config.baseDelayMs * 2 ^ attempt +
        config.baseDelayMs * 2 ^ attempt * (2/10) * (rand - 1/2) ∧
    config.baseDelayMs * 2 ^ attempt +
        config.baseDelayMs * 2 ^ attempt * (2/10) * (rand - 1/2) ≤
      config.baseDelayMs * 2 ^ attempt * (11/10) := by
  have hd : (0:ℚ) ≤ config.baseDelayMs * 2 ^ attempt :=
    mul_nonneg hbase (by positivity)
  refine ⟨?_, ?_, ?_⟩
  · unfold calculateBackoff
    exact min_le_right _ _
  · nlinarith [mul_nonneg hd h0]
  · nlinarith [mul_nonneg hd (by linarith : (0:ℚ) ≤ 1 - rand)]

theorem claim_C9_witness :
    calculateBackoff 0 demoRetryConfig 0 ≤ demoRetryConfig.maxDelayMs ∧
    demoRetryConfig.baseDelayMs * 2 ^ 0 * (9/10) ≤
      demoRetryConfig.baseDelayMs * 2 ^ 0 +
        demoRetryConfig.baseDelayMs * 2 ^ 0 * (2/10) * (0 - 1/2) ∧
    demoRetryConfig.baseDelayMs * 2 ^ 0 +
        demoRetryConfig.baseDelayMs * 2 ^ 0 * (2/10) * (0 - 1/2) ≤
      demoRetryConfig.baseDelayMs * 2 ^ 0 * (11/10) :=
  claim_C9 demoRetryConfig 0 0 (by norm_num [demoRetryConfig]) le_rfl (by norm_num)

theorem findingsMatch_symm (a b : Finding) : findingsMatch a b = findingsMatch b a := by
  simp only [findingsMatch]
  by_cases hsev : a.severity = b.severity
  · rw [if_neg (not_not_intro hsev), if_neg (not_not_intro hsev.symm)]
    by_cases ht : normalizeTitle a.title = normalizeTitle b.title
    · rw [if_pos ht, if_pos ht.symm]
    · rw [if_neg ht, if_neg (Ne.symm ht)]
      by_cases he : (wordsOver3 (normalizeTitle a.title)).toFinset.card = 0 ∨
          (wordsOver3 (normalizeTitle b.title)).toFinset.card = 0
      · rw [if_pos he, if_pos (Or.symm he)]
      · rw [if_neg he, if_neg (fun h => he (Or.symm h))]
        have h1 : (wordsOver3 (normalizeTitle b.title)).toFinset ∪
            (wordsOver3 (normalizeTitle a.title)).toFinset =
            (wordsOver3 (normalizeTitle a.title)).toFinset ∪
            (wordsOver3 (normalizeTitle b.title)).toFinset := Finset.union_comm _ _
        have h2 : (wordsOver3 (normalizeTitle b.title)).toFinset ∩
            (wordsOver3 (normalizeTitle a.title)).toFinset =
            (wordsOver3 (normalizeTitle a.title)).toFinset ∩
            (wordsOver3 (normalizeTitle b.title)).toFinset := Finset.inter_comm _ _
        rw [h1, h2]
        rcases a.file with _ | fa <;> rcases b.file with _ | fb <;> simp [eq_comm]
  · rw [if_pos hsev, if_pos (fun h => hsev h.symm)]

theorem stepsMatch_symm (a b : PlanStep) : stepsMatch a b = stepsMatch b a := by
  simp only [stepsMatch]
  by_cases hph : a.phase = b.phase
  · rw [if_neg (not_not_intro hph), if_neg (not_not_intro hph.symm)]
    by_cases ht : normalizeTitle a.title = normalizeTitle b.title
    · rw [if_pos ht, if_pos ht.symm]
    · rw [if_neg ht, if_neg (Ne.symm ht)]
      by_cases he : (wordsOver3 (normalizeTitle a.title)).toFinset.card = 0 ∨
          (wordsOver3 (normalizeTitle b.title)).toFinset.card = 0
      · rw [if_pos he, if_pos (Or.symm he)]
      · rw [if_neg he, if_neg (fun h => he (Or.symm h))]
        rw [Finset.union_comm, Finset.inter_comm]
  · rw [if_pos hph, if_pos (fun h => hph h.symm)]

/-- Claim C5: Both similarity matchers are symmetric:
`findingsMatch a b = findingsMatch b a` and `stepsMatch a b = stepsMatch b a`
for every pair of findings / plan steps. -/
theorem claim_C5 :
    (∀ a b : Finding, findingsMatch a b = findingsMatch b a) ∧
    (∀ a b : PlanStep, stepsMatch a b = stepsMatch b a) :=
  ⟨findingsMatch_symm, stepsMatch_symm⟩

/-- Claim C6, counterexample: The claim's file clause reads "the basenames of
their referenced files match".  The code compares the full paths before the
`:` suffix instead: two findings with the same severity, title similarity
exactly 0.5 (within `(0.3, 0.5]`) and the same basename `helper.ts` under
different directories match under the claim's reading but not in the code. -/
theorem claim_C6_counterexample :
    findingsMatch cexFindingA cexFindingB = false ∧
    specFindingsMatch cexFindingA cexFindingB = true := by
  constructor <;> decide

/-- Claim C6, amended: `findingsMatch(a, b)` is true exactly when the
severities are equal and either (1) the normalized titles are equal, or
(2) the Jaccard similarity over title words longer than 3 characters
exceeds 0.5, or (3) both findings carry a file reference, the file paths
before any `:` suffix are equal, and the similarity exceeds 0.3. -/
theorem claim_C6 (a b : Finding) : findingsMatch a b = findingsMatchAmended a b := by
  simp only [findingsMatch, findingsMatchAmended]
  by_cases hsev : a.severity = b.severity
  · rw [if_neg (not_not_intro hsev), decide_eq_true hsev, Bool.true_and]
    by_cases ht : normalizeTitle a.title = normalizeTitle b.title
    · rw [if_pos ht, decide_eq_true ht, Bool.true_or]
    · rw [if_neg ht, decide_eq_false ht, Bool.false_or]
      by_cases he : (wordsOver3 (normalizeTitle a.title)).toFinset.card = 0 ∨
          (wordsOver3 (normalizeTitle b.title)).toFinset.card = 0
      · rw [if_pos he]
        have hinter : ((wordsOver3 (normalizeTitle a.title)).toFinset ∩
            (wordsOver3 (normalizeTitle b.title)).toFinset).card = 0 := by
          rcases he with h | h
          · rw [Finset.card_eq_zero] at h
            rw [h, Finset.empty_inter, Finset.card_empty]
          · rw [Finset.card_eq_zero] at h
            rw [h, Finset.inter_empty, Finset.card_empty]
        rw [hinter]
        rcases a.file with _ | fa <;> rcases b.file with _ | fb <;> simp
      · rw [if_neg he]
        by_cases hu : ((wordsOver3 (normalizeTitle a.title)).toFinset ∪
              (wordsOver3 (normalizeTitle b.title)).toFinset).card <
            2 * ((wordsOver3 (normalizeTitle a.title)).toFinset ∩
              (wordsOver3 (normalizeTitle b.title)).toFinset).card
        · rw [if_pos hu, decide_eq_true hu, Bool.true_or]
        · rw [if_neg hu, decide_eq_false hu, Bool.false_or]
  · rw [if_pos hsev, decide_eq_false hsev, Bool.false_and]

/-- Claim C8, counterexample: A present but unrecognized severity string is
upper-cased and passed through (`"high"` becomes `"HIGH"`, outside
`{P0, P1, P2}`), and a plan step's missing `files` list stays absent
(`undefined`) rather than defaulting to an empty list. -/
theorem claim_C8_counterexample :
    (normalizeFinding { severity := some "high" }).severity = "HIGH" ∧
    ¬((normalizeFinding { severity := some "high" }).severity = "P0" ∨
      (normalizeFinding { severity := some "high" }).severity = "P1" ∨
      (normalizeFinding { severity := some "high" }).severity = "P2") ∧
    (normalizePlanStep { files := none }).files = none := by
  refine ⟨rfl, by decide, rfl⟩

/-- Claim C8, amended: The extractor's normalizers default *missing* fields:
a missing (or empty after upper-casing) severity becomes `P2`, while a
present severity string is upper-cased and passed through unvalidated; a
missing numeric phase becomes 1; and a plan step's missing `files` /
`dependencies` list fields are left absent rather than replaced by empty
lists. -/
theorem claim_C8 (raw : RawFinding) (rawStep : RawPlanStep) :
    (raw.severity = none → (normalizeFinding raw).severity = "P2") ∧
    (∀ s, raw.severity = some s →
      (normalizeFinding raw).severity = (if jsToUpper s = "" then "P2" else jsToUpper s)) ∧
    (rawStep.phase = none → (normalizePlanStep rawStep).phase = 1) ∧
    (rawStep.files = none → (normalizePlanStep rawStep).files = none) ∧
    (rawStep.dependencies = none → (normalizePlanStep rawStep).dependencies = none) := by
  refine ⟨?_, ?_, ?_, ?_, ?_⟩
  · intro h; simp [normalizeFinding, h]
  · intro s h; simp [normalizeFinding, h]
  · intro h; simp [normalizePlanStep, h]
  · intro h; simp [normalizePlanStep, h]
  · intro h; simp [normalizePlanStep, h]

theorem claim_C8_witness :
    (normalizeFinding { severity := none }).severity = "P2" ∧
    (normalizeFinding { severity := some "p0" }).severity =
      (if jsToUpper "p0" = "" then "P2" else jsToUpper "p0") ∧
    (normalizePlanStep { phase := none }).phase = 1 ∧
    (normalizePlanStep { phase := none }).files = none ∧
    (normalizePlanStep { phase := none }).dependencies = none :=
  ⟨(claim_C8 { severity := none } { phase := none }).1 rfl,
   (claim_C8 { severity := some "p0" } { phase := none }).2.1 "p0" rfl,
   (claim_C8 { severity := none } { phase := none }).2.2.1 rfl,
   (claim_C8 { severity := none } { phase := none }).2.2.2.1 rfl,
   (claim_C8 { severity := none } { phase := none }).2.2.2.2 rfl⟩

theorem categorizeRows_complete (votes : List ValidationVote) :
    ∀ l : List (ℕ × Finding),
      (categorizeRows votes l).1.length + (categorizeRows votes l).2.1.length = l.length := by
  intro l
  induction l with
  | nil => simp [categorizeRows]
  | cons p rest ih =>
    obtain ⟨i, f⟩ := p
    simp only [categorizeRows]
    split
    · simp only [List.length_cons]; omega
    · simp only [List.length_cons]; omega

theorem categorizeRows_rejected_sub (votes : List ValidationVote) :
    ∀ (l : List (ℕ × Finding)) (f : Finding), f ∈ (categorizeRows votes l).2.1 →
      ∃ i, (i, f) ∈ l ∧ approvesFor votes i < rejectsFor votes i := by
  intro l
  induction l with
  | nil => simp [categorizeRows]
  | cons p rest ih =>
    obtain ⟨i, g⟩ := p
    intro f hf
    simp only [categorizeRows] at hf
    by_cases hle : rejectsFor votes i ≤ approvesFor votes i
    · rw [if_pos hle] at hf
      obtain ⟨j, hj, hlt⟩ := ih f hf
      exact ⟨j, List.mem_cons_of_mem _ hj, hlt⟩
    · rw [if_neg hle] at hf
      rcases List.mem_cons.mp hf with rfl | hf'
      · exact ⟨i, List.mem_cons_self _ _, by omega⟩
      · obtain ⟨j, hj, hlt⟩ := ih f hf'
        exact ⟨j, List.mem_cons_of_mem _ hj, hlt⟩

theorem categorizeRows_approved_mem (votes : List ValidationVote) :
    ∀ (l : List (ℕ × Finding)) (i : ℕ) (f : Finding), (i, f) ∈ l →
      rejectsFor votes i ≤ approvesFor votes i → f ∈ (categorizeRows votes l).1 := by
  intro l
  induction l with
  | nil => simp
  | cons p rest ih =>
    obtain ⟨j, g⟩ := p
    intro i f hmem hle
    simp only [categorizeRows]
    rcases List.mem_cons.mp hmem with heq | h'
    · obtain ⟨rfl, rfl⟩ := Prod.mk.inj heq
      rw [if_pos hle]
      exact List.mem_cons_self _ _
    · split
      · exact List.mem_cons_of_mem _ (ih i f h' hle)
      · exact ih i f h' hle

theorem categorizeRows_tie_sub (votes : List ValidationVote) :
    ∀ (l : List (ℕ × Finding)) (f : Finding), f ∈ (categorizeRows votes l).2.2 →
      ∃ i, (i, f) ∈ l ∧ approvesFor votes i = rejectsFor votes i ∧
        0 < approvesFor votes i := by
  intro l
  induction l with
  | nil => simp [categorizeRows]
  | cons p rest ih =>
    obtain ⟨i, g⟩ := p
    intro f hf
    simp only [categorizeRows] at hf
    by_cases hle : rejectsFor votes i ≤ approvesFor votes i
    · rw [if_pos hle] at hf
      by_cases htie : approvesFor votes i = rejectsFor votes i ∧ 0 < approvesFor votes i
      · rw [if_pos htie] at hf
        rcases List.mem_cons.mp hf with rfl | hf'
        · exact ⟨i, List.mem_cons_self _ _, htie⟩
        · obtain ⟨j, hj, hc⟩ := ih f hf'
          exact ⟨j, List.mem_cons_of_mem _ hj, hc⟩
      · rw [if_neg htie] at hf
        obtain ⟨j, hj, hc⟩ := ih f hf
        exact ⟨j, List.mem_cons_of_mem _ hj, hc⟩
    · rw [if_neg hle] at hf
      obtain ⟨j, hj, hc⟩ := ih f hf
      exact ⟨j, List.mem_cons_of_mem _ hj, hc⟩

theorem mem_enum_of_get {l : List Finding} {i : ℕ} (h : i < l.length) :
    (i, l.get ⟨i, h⟩) ∈ l.enum := by
  rw [List.mk_mem_enum_iff_getElem?]
  simp [List.getElem?_eq_getElem h]

theorem enum_mem_get {l : List Finding} {i : ℕ} {f : Finding} (h : (i, f) ∈ l.enum) :
    ∃ hi : i < l.length, l.get ⟨i, hi⟩ = f := by
  rw [List.mk_mem_enum_iff_getElem?] at h
  have hi : i < l.length := by
    by_contra hcon
    rw [List.getElem?_eq_none (by omega)] at h
    exact Option.noConfusion h
  refine ⟨hi, ?_⟩
  rw [List.getElem?_eq_getElem hi] at h
  simpa using Option.some.inj h

/-- Claim C7: Validation fails open: when a validator's output contains a
JSON-looking substring that fails to parse, that validator casts an
"approve" vote for every proposed finding; when the executor call itself
raises, the votes likewise default to approve (with a noted reason); and
`runValidation` always returns a complete result — every composed finding
is categorized as approved or rejected. -/
theorem claim_C7 (findings : List Finding) (agent : String)
    (validators : List (String × ValidatorOutcome)) :
    ((parseValidationVotes ParseOutcome.malformed agent findings).length = findings.length ∧
      ∀ v ∈ parseValidationVotes ParseOutcome.malformed agent findings, v.vote = "approve") ∧
    ((validatorVotes findings agent ValidatorOutcome.executorError).length = findings.length ∧
      ∀ v ∈ validatorVotes findings agent ValidatorOutcome.executorError,
        v.vote = "approve") ∧
    (runValidation findings validators).approvedFindings.length +
      (runValidation findings validators).rejectedFindings.length = findings.length := by
  refine ⟨⟨?_, ?_⟩, ⟨?_, ?_⟩, ?_⟩
  · simp [parseValidationVotes, List.enum_length]
  · intro v hv
    simp only [parseValidationVotes, List.mem_map] at hv
    obtain ⟨p, _, rfl⟩ := hv
    rfl
  · simp [validatorVotes, List.enum_length]
  · intro v hv
    simp only [validatorVotes, List.mem_map] at hv
    obtain ⟨p, _, rfl⟩ := hv
    rfl
  · have h := categorizeRows_complete
      (validators.flatMap fun p => validatorVotes findings p.1 p.2) findings.enum
    simpa [runValidation, List.enum_length] using h

theorem claim_C7_witness :
    (runValidation [demoFinding]
        [("claude", ValidatorOutcome.output ParseOutcome.malformed)]).approvedFindings.length +
      (runValidation [demoFinding]
        [("claude", ValidatorOutcome.output ParseOutcome.malformed)]).rejectedFindings.length
      = 1 :=
  (claim_C7 [demoFinding] "claude"
    [("claude", ValidatorOutcome.output ParseOutcome.malformed)]).2.2

/-- Claim C10: In `runValidation`'s tally, a finding lands in
`rejectedFindings` only when it has strictly more reject than approve
votes; a finding with no votes at all (zero–zero, e.g. every validator's
output had no JSON object and so yielded an empty vote list) is approved;
and `tieFindings` only receives findings whose approve and reject counts
are equal and strictly positive — so a zero–zero finding is never
tie-flagged. -/
theorem claim_C10 (findings : List Finding)
    (validators : List (String × ValidatorOutcome)) :
    (∀ f ∈ (runValidation findings validators).rejectedFindings,
      ∃ i, ∃ hi : i < findings.length, findings.get ⟨i, hi⟩ = f ∧
        approvesFor (runValidation findings validators).votes i <
          rejectsFor (runValidation findings validators).votes i) ∧
    (∀ (i : ℕ) (hi : i < findings.length),
      approvesFor (runValidation findings validators).votes i = 0 →
      rejectsFor (runValidation findings validators).votes i = 0 →
      findings.get ⟨i, hi⟩ ∈ (runValidation findings validators).approvedFindings) ∧
    (∀ f ∈ (runValidation findings validators).tieFindings,
      ∃ i, ∃ hi : i < findings.length, findings.get ⟨i, hi⟩ = f ∧
        approvesFor (runValidation findings validators).votes i =
          rejectsFor (runValidation findings validators).votes i ∧
        0 < approvesFor (runValidation findings validators).votes i) := by
  have hv : (runValidation findings validators).votes =
      validators.flatMap (fun p => validatorVotes findings p.1 p.2) := rfl
  have hap : (runValidation findings validators).approvedFindings =
      (categorizeRows (validators.flatMap fun p => validatorVotes findings p.1 p.2)
        findings.enum).1 := rfl
  have hrj : (runValidation findings validators).rejectedFindings =
      (categorizeRows (validators.flatMap fun p => validatorVotes findings p.1 p.2)
        findings.enum).2.1 := rfl
  have hti : (runValidation findings validators).tieFindings =
      (categorizeRows (validators.flatMap fun p => validatorVotes findings p.1 p.2)
        findings.enum).2.2 := rfl
  refine ⟨?_, ?_, ?_⟩
  · intro f hf
    rw [hrj] at hf
    obtain ⟨i, hmem, hlt⟩ := categorizeRows_rejected_sub _ findings.enum f hf
    obtain ⟨hi, hget⟩ := enum_mem_get hmem
    exact ⟨i, hi, hget, by rw [hv]; exact hlt⟩
  · intro i hi h0a h0r
    rw [hap]
    rw [hv] at h0a h0r
    exact categorizeRows_approved_mem _ findings.enum i _ (mem_enum_of_get hi) (by omega)
  · intro f hf
    rw [hti] at hf
    obtain ⟨i, hmem, hc⟩ := categorizeRows_tie_sub _ findings.enum f hf
    obtain ⟨hi, hget⟩ := enum_mem_get hmem
    exact ⟨i, hi, hget, by rw [hv]; exact hc.1, by rw [hv]; exact hc.2⟩

theorem claim_C10_witness :
    demoFinding ∈ (runValidation [demoFinding]
      [("claude", ValidatorOutcome.output ParseOutcome.noJson)]).approvedFindings :=
  (claim_C10 [demoFinding] [("claude", ValidatorOutcome.output ParseOutcome.noJson)]).2.1 0
    (by decide) (by decide) (by decide)

theorem collectAllFindings_eq_nil {agentOutputs : List AgentDebateOutput}
    (h : ∀ o ∈ agentOutputs, o.review.findings = []) : collectAllFindings agentOutputs = [] := by
  unfold collectAllFindings
  have hfl : agentOutputs.flatMap (fun o => o.review.findings.map fun f => (f, o.agent)) = [] := by
    induction agentOutputs with
    | nil => rfl
    | cons o rest ih =>
      rw [List.flatMap_cons, h o (List.mem_cons_self _ _), List.map_nil, List.nil_append]
      exact ih (fun o' ho' => h o' (List.mem_cons_of_mem _ ho'))
  rw [hfl]
  rfl

theorem findingsFor_eq_nil {agentOutputs : List AgentDebateOutput}
    (h : ∀ o ∈ agentOutputs, o.review.findings = []) (name : String) :
    findingsFor agentOutputs name = [] := by
  unfold findingsFor
  cases hfind : agentOutputs.find? (fun o => o.agent = name) with
  | none => rfl
  | some o => exact h o (List.mem_of_find?_eq_some hfind)

theorem buildAgreementMatrixEntry_le (agentOutputs : List AgentDebateOutput)
    (agentA agentB : String) : buildAgreementMatrixEntry agentOutputs agentA agentB ≤ 100 := by
  unfold buildAgreementMatrixEntry
  split
  · exact le_refl _
  · lift_lets
    extract_lets findingsA findingsB
    split
    · exact le_refl _
    · extract_lets matchingFindings totalUnique agreement
      exact min_le_right _ _

theorem buildAgreementMatrixEntry_eq_100 {agentOutputs : List AgentDebateOutput}
    (h : ∀ o ∈ agentOutputs, o.review.findings = []) (agentA agentB : String) :
    buildAgreementMatrixEntry agentOutputs agentA agentB = 100 := by
  simp only [buildAgreementMatrixEntry]
  split
  · rfl
  · rw [findingsFor_eq_nil h, findingsFor_eq_nil h]
    simp

theorem avgPairwiseAgreementOf_le (agentOutputs : List AgentDebateOutput) :
    avgPairwiseAgreementOf agentOutputs ≤ 100 := by
  simp only [avgPairwiseAgreementOf]
  split
  · next hp =>
    apply jsRoundDiv_le_100 _ hp
    have hb := List.sum_le_card_nsmul
      ((offDiagPairs (matrixKeys agentOutputs)).map
        (fun p => buildAgreementMatrixEntry agentOutputs p.1 p.2)) 100 ?_
    · rw [List.length_map, smul_eq_mul] at hb
      omega
    · intro x hx
      obtain ⟨p, _, rfl⟩ := List.mem_map.mp hx
      exact buildAgreementMatrixEntry_le agentOutputs p.1 p.2
  · exact le_refl _

theorem avgPairwiseAgreementOf_eq_100 {agentOutputs : List AgentDebateOutput}
    (h : ∀ o ∈ agentOutputs, o.review.findings = []) :
    avgPairwiseAgreementOf agentOutputs = 100 := by
  simp only [avgPairwiseAgreementOf]
  split
  · next hp =>
    have hmap : (offDiagPairs (matrixKeys agentOutputs)).map
        (fun p => buildAgreementMatrixEntry agentOutputs p.1 p.2) =
        List.replicate (offDiagPairs (matrixKeys agentOutputs)).length 100 := by
      refine List.eq_replicate_iff.mpr ⟨by rw [List.length_map], ?_⟩
      intro x hx
      obtain ⟨p, _, rfl⟩ := List.mem_map.mp hx
      exact buildAgreementMatrixEntry_eq_100 h p.1 p.2
    rw [hmap, List.sum_const_nat, Nat.mul_comm]
    exact jsRoundDiv_100_self hp
  · rfl

theorem agreementConfidenceOf_le (agentOutputs : List AgentDebateOutput)
    (critiques : List CritiqueResult) :
    agreementConfidenceOf agentOutputs critiques ≤ 100 := by
  simp only [agreementConfidenceOf]
  split
  · next hp =>
    apply jsRoundDiv_le_100 _ hp
    have hle : agreedFindingsCount agentOutputs critiques ≤
        (collectAllFindings agentOutputs).length := List.length_filter_le _ _
    omega
  · exact le_refl _

theorem agreementConfidenceOf_eq_100 {agentOutputs : List AgentDebateOutput}
    (h : ∀ o ∈ agentOutputs, o.review.findings = []) (critiques : List CritiqueResult) :
    agreementConfidenceOf agentOutputs critiques = 100 := by
  unfold agreementConfidenceOf
  rw [if_neg]
  rw [collectAllFindings_eq_nil h]
  simp

/-- Claim C1: `calculateConfidence` always returns an integer score with
`0 ≤ score ≤ 100`; when every agent's review has zero findings the score is
exactly 100; and the `converged` flag is set exactly when
`score ≥ threshold`. -/
theorem claim_C1 (agentOutputs : List AgentDebateOutput)
    (critiques : List CritiqueResult) (threshold : ℤ) :
    (0 : ℤ) ≤ ((calculateConfidence agentOutputs critiques threshold).score : ℤ) ∧
    ((calculateConfidence agentOutputs critiques threshold).score : ℤ) ≤ 100 ∧
    ((∀ o ∈ agentOutputs, o.review.findings = []) →
      (calculateConfidence agentOutputs critiques threshold).score = 100) ∧
    ((calculateConfidence agentOutputs critiques threshold).converged = true ↔
      threshold ≤ ((calculateConfidence agentOutputs critiques threshold).score : ℤ)) := by
  have hscore : (calculateConfidence agentOutputs critiques threshold).score =
      jsRoundDiv (agreementConfidenceOf agentOutputs critiques * 6 +
        avgPairwiseAgreementOf agentOutputs * 4) 10 := rfl
  refine ⟨by positivity, ?_, ?_, ?_⟩
  · rw [hscore]
    have h1 := agreementConfidenceOf_le agentOutputs critiques
    have h2 := avgPairwiseAgreementOf_le agentOutputs
    have h3 : jsRoundDiv (agreementConfidenceOf agentOutputs critiques * 6 +
        avgPairwiseAgreementOf agentOutputs * 4) 10 ≤ 100 :=
      jsRoundDiv_le_100 (by omega) (by omega)
    exact_mod_cast h3
  · intro h
    rw [hscore, agreementConfidenceOf_eq_100 h critiques, avgPairwiseAgreementOf_eq_100 h]
    rfl
  · rw [show (calculateConfidence agentOutputs critiques threshold).converged =
      decide (threshold ≤ ((calculateConfidence agentOutputs critiques threshold).score : ℤ))
      from rfl]
    exact decide_eq_true_iff

theorem claim_C1_witness :
    (0 : ℤ) ≤ ((calculateConfidence demoOutputs [] 80).score : ℤ) ∧
    ((calculateConfidence demoOutputs [] 80).score : ℤ) ≤ 100 ∧
    (calculateConfidence demoOutputs [] 80).score = 100 ∧
    ((calculateConfidence demoOutputs [] 80).converged = true ↔
      (80 : ℤ) ≤ ((calculateConfidence demoOutputs [] 80).score : ℤ)) :=
  ⟨(claim_C1 demoOutputs [] 80).1, (claim_C1 demoOutputs [] 80).2.1,
    (claim_C1 demoOutputs [] 80).2.2.1 (by decide), (claim_C1 demoOutputs [] 80).2.2.2⟩

end Debate
